import Mathlib

/-
Verification of the gcs package: the listing and metadata-update protocol of a
bucket-scoped object-storage abstraction.

Sources embedded here:
  * src/gcs/requests.go — the request/result value types (CreateObjectRequest,
    ListObjectsRequest, Listing, UpdateObjectRequest) together with the
    contracts stated in their doc comments (listing order, continuation-token
    guarantees, tri-state update semantics, object-name constraints).
  * src/gcs/bucket.go — the bucket facade: ListObjects and NewReader delegate
    verbatim to the remote-store collaborator (the storage package), and
    NewWriter constructs a writer locally with no validation and no store call.

The listing engine, the metadata patch resolver and CreateObject are invoked
through these types but their implementations are not under src/ (bucket.go
delegates to the storage collaborator); those operations are modelled from the
spec, as marked on each definition.

Machine integers (Go int64) are modelled as Int: no claim here involves
arithmetic anywhere near the 64-bit boundary. Go strings are Lean Strings and
the byte-wise lexicographic order on names is the order on their character
lists (strLt below).
-/

namespace Gcs

/-- Error taxonomy of the package (spec section 7): each failure surfaces to
the caller as a typed result. -/
inductive GcsError where
  | invalidArgument
  | notFound
  | preconditionFailed
  | invalidUpdate
  | corruptListing
  | cancelled
  | deadlineExceeded
  | transientStoreError
  | unauthorized
deriving DecidableEq

/-- An Object record: immutable description of one stored blob's identity and
metadata (spec section 3; the Object type referenced by Listing in
src/gcs/requests.go). Identity is the pair (name, generation). The optional
scalar attributes use none for an absent field; user metadata is a
string-keyed map modelled as an association list. -/
structure ObjectRecord where
  name : String
  generation : Int
  contentType : String
  contentEncoding : Option String
  contentLanguage : Option String
  cacheControl : Option String
  metadata : List (String × String)
deriving DecidableEq

/-- Lexicographic order on names, as byte/character sequences. This is the
order the listing contract in src/gcs/requests.go speaks about. -/
def strLt (a b : String) : Prop :=
  a.data < b.data

instance (a b : String) : Decidable (strLt a b) :=
  inferInstanceAs (Decidable (a.data < b.data))

/-- The listing comparison from src/gcs/requests.go (Listing.Objects doc):
lexicographic comparison on (name, generation) pairs. -/
def objectLt (a b : ObjectRecord) : Prop :=
  strLt a.name b.name ∨ (a.name = b.name ∧ a.generation < b.generation)

instance (a b : ObjectRecord) : Decidable (objectLt a b) := by
  unfold objectLt; infer_instance

/-- Listing: the result of ListObjects (src/gcs/requests.go lines 101-133):
object records, delimiter-collapsed runs, and an opaque continuation token
(empty means final page). -/
structure Listing where
  objects : List ObjectRecord
  collapsedRuns : List String
  continuationToken : String
deriving DecidableEq

/-- One raw page as returned by the remote-store collaborator (spec section 6,
RemoteList): raw object entries, raw collapsed runs, and the store's page
cursor (nextToken, empty signalling the final page). -/
structure RawPage where
  rawEntries : List ObjectRecord
  rawCollapsedRuns : List String
  nextToken : String
deriving DecidableEq

/-- Consecutive-pairs ordering check: every adjacent pair of the list is
related by R. This is the linear scan a page validator performs. -/
def pairsChain (R : α → α → Prop) : List α → Prop
  | [] => True
  | [_] => True
  | a :: b :: l => R a b ∧ pairsChain R (b :: l)

instance instDecidablePairsChain {R : α → α → Prop} [DecidableRel R] :
    (l : List α) → Decidable (pairsChain R l)
  | [] => isTrue trivial
  | [_] => isTrue trivial
  | a :: b :: l =>
    have : Decidable (pairsChain R (b :: l)) := instDecidablePairsChain (b :: l)
    inferInstanceAs (Decidable (R a b ∧ pairsChain R (b :: l)))

/-- Modelled from the spec: the listing engine behind Bucket.ListObjects.
bucket.ListObjects (src/gcs/bucket.go lines 50-53) delegates to the storage
collaborator, whose implementation is not under src/; spec section 4.1 fixes
its contract: given a raw page, produce a Listing whose objects and
collapsedRuns are each independently strictly increasing, propagating the
store's page cursor verbatim; if the store's entries violate the ordering
invariant within the page, fail with CorruptListing rather than silently
re-sorting. -/
def listObjects (page : RawPage) : Except GcsError Listing :=
  if pairsChain objectLt page.rawEntries ∧ pairsChain strLt page.rawCollapsedRuns then
    Except.ok ⟨page.rawEntries, page.rawCollapsedRuns, page.nextToken⟩
  else
    Except.error GcsError.corruptListing

/-- All name-like keys of a listing: object names followed by collapsed runs.
The cross-page contract of src/gcs/requests.go (Listing.ContinuationToken doc)
relates every key of one page to every key of the next. -/
def listingKeys (l : Listing) : List String :=
  l.objects.map ObjectRecord.name ++ l.collapsedRuns

/-- The cross-page ordering contract between a listing and the one obtained by
continuing from its token (src/gcs/requests.go lines 114-133): all of R1's
object names and collapsed runs are strictly less than all object names and
collapsed runs in R2. -/
def boundaryOk (r1 r2 : Listing) : Prop :=
  ∀ u ∈ listingKeys r1, ∀ v ∈ listingKeys r2, strLt u v

instance (r1 r2 : Listing) : Decidable (boundaryOk r1 r2) := by
  unfold boundaryOk; infer_instance

/-- Modelled from the spec: the store-side paging contract (spec sections 3
and 6) — the store serves a finite sequence of pages and its cursor
(nextToken) is the empty string exactly on the last page of the sequence. -/
def pagesWellFormed (pages : List RawPage) : Prop :=
  ∀ i (h : i < pages.length), ((pages.get ⟨i, h⟩).nextToken = "" ↔ i + 1 = pages.length)

instance (pages : List RawPage) : Decidable (pagesWellFormed pages) := by
  unfold pagesWellFormed; infer_instance

/-- UpdateObjectRequest (src/gcs/requests.go lines 138-166): for each scalar
string field, none leaves the object field untouched, some "" removes it, and
some v (v nonempty) sets it to v; the content type field can never be removed.
User metadata: keys not mentioned are untouched, keys mapped to none are
deleted, keys mapped to some v are set. The Go map is modelled as an
association list. -/
structure UpdateObjectRequest where
  name : String
  contentType : Option String
  contentEncoding : Option String
  contentLanguage : Option String
  cacheControl : Option String
  metadata : List (String × Option String)
deriving DecidableEq

/-- Tri-state merge for one optional scalar attribute (src/gcs/requests.go
field semantics): absent request field keeps the current value, empty string
deletes the field, nonempty string sets it. -/
def applyTri (cur : Option String) (upd : Option String) : Option String :=
  match upd with
  | none => cur
  | some v => if v = "" then none else some v

/-- Merge for the content type field, which is always present on the record
and can only be kept or replaced (deletion is rejected before this runs). -/
def applyCT (cur : String) (upd : Option String) : String :=
  match upd with
  | none => cur
  | some v => v

/-- Remove a key from the metadata association list. -/
def eraseKey (m : List (String × String)) (k : String) : List (String × String) :=
  m.filter (fun p => p.1 != k)

/-- Set a key in the metadata association list (last-writer-wins placement). -/
def setKey (m : List (String × String)) (k : String) (v : String) : List (String × String) :=
  eraseKey m k ++ [(k, v)]

/-- Apply one requested metadata entry: a key mapped to none is a delete-key
mutation, a key mapped to some v is a set-key mutation. -/
def applyMetadataEntry (m : List (String × String)) (u : String × Option String) :
    List (String × String) :=
  match u.2 with
  | none => eraseKey m u.1
  | some v => setKey m u.1 v

/-- Apply all requested metadata entries in order. -/
def applyMetadataUpdate (m : List (String × String)) (us : List (String × Option String)) :
    List (String × String) :=
  us.foldl applyMetadataEntry m

/-- Whether a requested metadata update mentions the key k (as a set or a
delete). Keys not mentioned are never touched. -/
def touches (us : List (String × Option String)) (k : String) : Bool :=
  us.any (fun u => u.1 == k)

/-- Modelled from the spec: the metadata patch resolver applied to a target
Object record. Bucket.UpdateObject is not implemented under src/ (only
UpdateObjectRequest and its field semantics are declared, src/gcs/requests.go
lines 138-166; spec section 4.2). Requesting deletion of the content type
fails with InvalidUpdate and produces no mutation; otherwise every field is
merged by the tri-state rule and the metadata map entries are applied
key-wise. Name and generation identify the object and are not changed by a
metadata update. -/
def applyUpdate (r : ObjectRecord) (u : UpdateObjectRequest) : Except GcsError ObjectRecord :=
  if u.contentType = some "" then
    Except.error GcsError.invalidUpdate
  else
    Except.ok
      { r with
        contentType := applyCT r.contentType u.contentType
        contentEncoding := applyTri r.contentEncoding u.contentEncoding
        contentLanguage := applyTri r.contentLanguage u.contentLanguage
        cacheControl := applyTri r.cacheControl u.cacheControl
        metadata := applyMetadataUpdate r.metadata u.metadata }

/-- CreateObjectRequest (src/gcs/requests.go lines 20-53): name, creation
attributes, contents (a byte stream, modelled as the list of its bytes), and
an optional generation precondition — the write succeeds only if the current
generation equals it, zero meaning the object must not currently exist. -/
structure CreateObjectRequest where
  name : String
  contentType : String
  contentLanguage : String
  contentEncoding : String
  cacheControl : String
  metadata : List (String × String)
  contents : List Nat
  generationPrecondition : Option Int
deriving DecidableEq

/-- Object-name validity (src/gcs/requests.go lines 22-32): non-empty, no
longer than 1024 bytes, not containing U+000A or U+000D. (Valid UTF-8 is
inherent in the Lean String type.) -/
def validName (name : String) : Bool :=
  !(name == "") && decide (name.utf8ByteSize ≤ 1024) &&
    !(name.data.contains '\n') && !(name.data.contains '\r')

/-- Current generation of the named object in a bucket state, if present. -/
def currentGeneration (state : List ObjectRecord) (name : String) : Option Int :=
  (state.find? (fun o => o.name == name)).map (fun o => o.generation)

/-- Largest generation present in a bucket state (generations are assigned
monotonically, spec section 3). -/
def maxGeneration (state : List ObjectRecord) : Int :=
  state.foldl (fun acc o => max acc o.generation) 0

/-- Convert a Go-style string attribute ("" meaning unset) to the record's
optional field. -/
def emptyToNone (s : String) : Option String :=
  if s = "" then none else some s

/-- Modelled from the spec: Bucket.CreateObject. Its implementation is not
under src/ (only CreateObjectRequest is declared, src/gcs/requests.go lines
20-53; spec sections 4.3 and 7): the name is validated before any store call,
failing with InvalidArgument; a generation precondition is enforced against
the current state, a mismatch failing with PreconditionFailed (zero meaning
the object must not currently exist); on success the object is written with a
fresh generation. -/
def createObject (state : List ObjectRecord) (req : CreateObjectRequest) :
    Except GcsError (List ObjectRecord × ObjectRecord) :=
  if !(validName req.name) then
    Except.error GcsError.invalidArgument
  else
    let newObj : ObjectRecord :=
      { name := req.name
        generation := maxGeneration state + 1
        contentType := req.contentType
        contentEncoding := emptyToNone req.contentEncoding
        contentLanguage := emptyToNone req.contentLanguage
        cacheControl := emptyToNone req.cacheControl
        metadata := req.metadata }
    let written : List ObjectRecord × ObjectRecord :=
      (newObj :: state.filter (fun o => o.name != req.name), newObj)
    match req.generationPrecondition with
    | none => Except.ok written
    | some p =>
      match currentGeneration state req.name with
      | none => if p = 0 then Except.ok written else Except.error GcsError.preconditionFailed
      | some g => if p = g then Except.ok written else Except.error GcsError.preconditionFailed

/-- Attributes with which to create an object, as passed to bucket.NewWriter
(the storage.ObjectAttrs value; src/gcs/bucket.go lines 33-37). Only the
fields the facade can inspect are modelled; nil-and-zero-valued attributes
are ignored by contract, and bucket.NewWriter inspects none of them. -/
structure ObjectAttrs where
  name : String
  contentType : String
deriving DecidableEq

/-- The collaborator's storage.Writer value, wrapping the attributes it was
created with (src/gcs/bucket.go lines 61-65). -/
structure StorageWriter where
  objectAttrs : ObjectAttrs
deriving DecidableEq

/-- The objectWriter returned by bucket.NewWriter, wrapping a storage.Writer. -/
structure ObjectWriter where
  wrapped : StorageWriter
deriving DecidableEq

/-- One observable call to the remote-store collaborator. The embeddings of
the facade operations return the calls they make, so that a theorem can state
that an operation made no store call. -/
inductive StoreCall where
  | remoteOpenRead (bucketName : String) (objectName : String)
  | remoteList (bucketName : String)
deriving DecidableEq

/-- The bucket facade state (src/gcs/bucket.go lines 40-44): project id and
bucket name; the HTTP client is transport state with no bearing on control
flow and is elided. -/
structure Bucket where
  projID : String
  name : String
deriving DecidableEq

/-- Embedding of bucket.NewReader (src/gcs/bucket.go lines 55-58): it
delegates unconditionally to storage.NewReader with the bucket and object
name — no validation of the object name happens before the collaborator is
called. The returned byte stream comes from the collaborator; the embedding
records the calls made. -/
def Bucket.NewReader (b : Bucket) (objectName : String) : List StoreCall :=
  [StoreCall.remoteOpenRead b.name objectName]

/-- Embedding of bucket.NewWriter (src/gcs/bucket.go lines 60-67): it
constructs an objectWriter wrapping a storage.Writer that carries the given
attributes, and returns it with a nil error — unconditionally, with no
validation of the attributes and no call to the collaborator. -/
def Bucket.NewWriter (_b : Bucket) (attrs : ObjectAttrs) :
    Except GcsError ObjectWriter × List StoreCall :=
  (Except.ok { wrapped := { objectAttrs := attrs } }, [])

instance instDecidableEqExceptG {ε : Type u} {α : Type v} [DecidableEq ε] [DecidableEq α] :
    DecidableEq (Except ε α)
  | Except.ok a, Except.ok b =>
    if h : a = b then isTrue (by rw [h]) else isFalse (fun he => by cases he; exact h rfl)
  | Except.error e, Except.error f =>
    if h : e = f then isTrue (by rw [h]) else isFalse (fun he => by cases he; exact h rfl)
  | Except.ok _, Except.error _ => isFalse (fun h => by cases h)
  | Except.error _, Except.ok _ => isFalse (fun h => by cases h)

/-- Sample object used by concrete instantiations below. -/
def sampleA : ObjectRecord := ⟨"a", 1, "text/plain", none, none, none, [("k", "v")]⟩

/-- Sample object used by concrete instantiations below. -/
def sampleC : ObjectRecord := ⟨"c", 2, "", none, none, none, []⟩

/-- A raw page holding only sampleA, with a continuation cursor. -/
def cxPage1 : RawPage := ⟨[sampleA], [], "t1"⟩

/-- An empty raw page that still carries a continuation cursor. -/
def cxPage2 : RawPage := ⟨[], [], "t2"⟩

/-- A final raw page holding only sampleA again. -/
def cxPage3 : RawPage := ⟨[sampleA], [], ""⟩

/-- The listing produced from cxPage1. -/
def cxListing1 : Listing := ⟨[sampleA], [], "t1"⟩

/-- The listing produced from cxPage2. -/
def cxListing2 : Listing := ⟨[], [], "t2"⟩

/-- The listing produced from cxPage3. -/
def cxListing3 : Listing := ⟨[sampleA], [], ""⟩

/-- First page of a two-page continuation sequence with nonempty pages. -/
def cwPage1 : RawPage := ⟨[sampleA], ["b/"], "t"⟩

/-- Second page of the two-page continuation sequence. -/
def cwPage2 : RawPage := ⟨[sampleC], ["d/"], ""⟩

/-- The listing produced from cwPage1. -/
def cwListing1 : Listing := ⟨[sampleA], ["b/"], "t"⟩

/-- The listing produced from cwPage2. -/
def cwListing2 : Listing := ⟨[sampleC], ["d/"], ""⟩

/-- The name order is transitive. -/
theorem strLt_trans {a b c : String} (h1 : strLt a b) (h2 : strLt b c) : strLt a c := by
  unfold strLt at *
  exact lt_trans h1 h2

/-- The name order is transitive, packaged for pairwise lemmas. -/
theorem strLt_transitive : Transitive strLt :=
  fun _ _ _ h1 h2 => strLt_trans h1 h2

/-- The (name, generation) lexicographic order is transitive. -/
theorem objectLt_trans {a b c : ObjectRecord} (h1 : objectLt a b) (h2 : objectLt b c) :
    objectLt a c := by
  rcases h1 with h1 | ⟨e1, g1⟩ <;> rcases h2 with h2 | ⟨e2, g2⟩
  · exact Or.inl (strLt_trans h1 h2)
  · exact Or.inl (by rw [← e2]; exact h1)
  · exact Or.inl (by rw [e1]; exact h2)
  · exact Or.inr ⟨e1.trans e2, lt_trans g1 g2⟩

/-- The (name, generation) lexicographic order is transitive, packaged for
pairwise lemmas. -/
theorem objectLt_transitive : Transitive objectLt :=
  fun _ _ _ h1 h2 => objectLt_trans h1 h2

/-- A consecutive-pairs chain is fully pairwise, given a bridging form of
transitivity: R composes through any middle element satisfying P, and every
element of the list satisfies P. -/
theorem pairsChain_pairwise_bridge {R : α → α → Prop} {P : α → Prop}
    (hT : ∀ a b c, R a b → R b c → P b → R a c) :
    ∀ l : List α, pairsChain R l → (∀ x ∈ l, P x) → List.Pairwise R l
  | [], _, _ => List.Pairwise.nil
  | [a], _, _ => List.pairwise_singleton R a
  | a :: b :: l, ⟨hab, hrest⟩, hP => by
    have ih := pairsChain_pairwise_bridge hT (b :: l) hrest
      (fun x hx => hP x (List.mem_cons_of_mem a hx))
    refine List.Pairwise.cons ?_ ih
    intro y hy
    rcases List.mem_cons.mp hy with rfl | hy'
    · exact hab
    · exact hT a b y hab ((List.pairwise_cons.mp ih).1 y hy') (hP b (by simp))

/-- A consecutive-pairs chain of a transitive relation is fully pairwise. -/
theorem pairsChain_pairwise {R : α → α → Prop} (hT : Transitive R) {l : List α}
    (h : pairsChain R l) : List.Pairwise R l :=
  pairsChain_pairwise_bridge (fun a b c h1 h2 _ => @hT a b c h1 h2) l h (fun _ _ => trivial)

/-- Inversion for the listing engine: a successful listing means the raw page
passed the ordering check and every field was taken from the page verbatim. -/
theorem listObjects_ok_iff {page : RawPage} {l : Listing} :
    listObjects page = Except.ok l ↔
      (pairsChain objectLt page.rawEntries ∧ pairsChain strLt page.rawCollapsedRuns) ∧
        l = ⟨page.rawEntries, page.rawCollapsedRuns, page.nextToken⟩ := by
  unfold listObjects
  split <;> rename_i h
  · constructor
    · intro hok
      exact ⟨h, (Except.ok.injEq _ _).mp hok |>.symm⟩
    · intro ⟨_, hl⟩
      rw [hl]
  · constructor
    · intro hok
      exact absurd hok (by simp)
    · intro ⟨hchk, _⟩
      exact absurd hchk h

/-- The cross-page contract composes through any listing that has at least
one key. -/
theorem boundaryOk_trans {a b c : Listing} (h1 : boundaryOk a b) (h2 : boundaryOk b c)
    (hne : listingKeys b ≠ []) : boundaryOk a c := by
  intro u hu v hv
  obtain ⟨w, hw⟩ := List.exists_mem_of_ne_nil _ hne
  exact strLt_trans (h1 u hu w hw) (h2 w hw v hv)

/-- Flattening the object sequences of pairwise-boundary-ordered, internally
sorted listings yields a strictly increasing sequence. -/
theorem flatten_objects_pairwise {ls : List Listing}
    (hs : ∀ l ∈ ls, List.Pairwise objectLt l.objects)
    (hb : List.Pairwise boundaryOk ls) :
    List.Pairwise objectLt (ls.map (fun l => l.objects)).flatten := by
  rw [List.pairwise_flatten]
  constructor
  · intro l' hl'
    obtain ⟨l, hl, rfl⟩ := List.mem_map.mp hl'
    exact hs l hl
  · rw [List.pairwise_map]
    refine hb.imp ?_
    intro l1 l2 h x hx y hy
    exact Or.inl (h x.name (List.mem_append_left _ (List.mem_map_of_mem ObjectRecord.name hx))
      y.name (List.mem_append_left _ (List.mem_map_of_mem ObjectRecord.name hy)))

/-- Flattening the collapsed-run sequences of pairwise-boundary-ordered,
internally sorted listings yields a strictly increasing sequence. -/
theorem flatten_runs_pairwise {ls : List Listing}
    (hs : ∀ l ∈ ls, List.Pairwise strLt l.collapsedRuns)
    (hb : List.Pairwise boundaryOk ls) :
    List.Pairwise strLt (ls.map (fun l => l.collapsedRuns)).flatten := by
  rw [List.pairwise_flatten]
  constructor
  · intro l' hl'
    obtain ⟨l, hl, rfl⟩ := List.mem_map.mp hl'
    exact hs l hl
  · rw [List.pairwise_map]
    refine hb.imp ?_
    intro l1 l2 h x hx y hy
    exact h x (List.mem_append_right _ hx) y (List.mem_append_right _ hy)

/-- Unfolding touches over a cons. -/
theorem touches_cons {u : String × Option String} {us : List (String × Option String)}
    {k : String} : touches (u :: us) k = ((u.1 == k) || touches us k) := by
  simp [touches]

/-- Unfolding the metadata update over a cons. -/
theorem applyMetadataUpdate_cons (m : List (String × String)) (u : String × Option String)
    (us : List (String × Option String)) :
    applyMetadataUpdate m (u :: us) = applyMetadataUpdate (applyMetadataEntry m u) us :=
  rfl

/-- Erasing a key and then keeping the entries untouched by us is the same as
keeping the entries untouched by the update that also mentions that key. -/
theorem filter_eraseKey (m : List (String × String)) (k : String)
    (us : List (String × Option String)) :
    (eraseKey m k).filter (fun p => !(touches us p.1)) =
      m.filter (fun p => !((k == p.1) || touches us p.1)) := by
  unfold eraseKey
  rw [List.filter_filter]
  apply List.filter_congr
  intro p _
  cases hpk : (p.1 == k) <;> cases ht : touches us p.1 <;>
    simp_all [bne, BEq.comm]

/-- Normal form of the metadata update: the entries of the original map whose
keys the update never mentions, in their original order, followed by a block
determined by the update alone. -/
theorem applyMetadataUpdate_eq_filter_append (us : List (String × Option String)) :
    ∀ m : List (String × String),
      applyMetadataUpdate m us =
        m.filter (fun p => !(touches us p.1)) ++ applyMetadataUpdate [] us := by
  induction us with
  | nil =>
    intro m
    simp [applyMetadataUpdate, touches]
  | cons u us ih =>
    intro m
    rw [applyMetadataUpdate_cons, ih (applyMetadataEntry m u),
      applyMetadataUpdate_cons ([]) u us, ih (applyMetadataEntry [] u), ← List.append_assoc]
    congr 1
    cases hu : u.2 with
    | none =>
      simp only [applyMetadataEntry, hu]
      rw [filter_eraseKey]
      have : eraseKey [] u.1 = [] := rfl
      rw [this]
      simp only [List.filter_nil, List.append_nil]
      apply List.filter_congr
      intro p _
      rw [touches_cons]
    | some v =>
      simp only [applyMetadataEntry, hu, setKey]
      rw [List.filter_append, filter_eraseKey]
      have : eraseKey [] u.1 = [] := rfl
      rw [this, List.nil_append]
      congr 1

/-- Every entry of a metadata update applied to the empty map has a key the
update mentions. -/
theorem mem_applyMetadataUpdate {p : String × String} (us : List (String × Option String)) :
    ∀ m : List (String × String), p ∈ applyMetadataUpdate m us →
      touches us p.1 = true ∨ p ∈ m := by
  induction us with
  | nil =>
    intro m h
    exact Or.inr h
  | cons u us ih =>
    intro m h
    rw [applyMetadataUpdate_cons] at h
    rcases ih _ h with ht | hm
    · refine Or.inl ?_
      rw [touches_cons, ht]
      simp
    · cases hu : u.2 with
      | none =>
        simp only [applyMetadataEntry, hu, eraseKey] at hm
        exact Or.inr (List.mem_of_mem_filter hm)
      | some v =>
        simp only [applyMetadataEntry, hu, setKey, eraseKey] at hm
        rcases List.mem_append.mp hm with h1 | h2
        · exact Or.inr (List.mem_of_mem_filter h1)
        · have hp : p = (u.1, v) := by simpa using h2
          refine Or.inl ?_
          rw [touches_cons, hp]
          simp

/-- Applying the same metadata update twice yields the same map as applying
it once. -/
theorem applyMetadataUpdate_idem (m : List (String × String))
    (us : List (String × Option String)) :
    applyMetadataUpdate (applyMetadataUpdate m us) us = applyMetadataUpdate m us := by
  have hF : (applyMetadataUpdate [] us).filter (fun p => !(touches us p.1)) = [] := by
    rw [List.filter_eq_nil_iff]
    intro p hp
    rcases mem_applyMetadataUpdate us [] hp with ht | habs
    · simp [ht]
    · exact absurd habs (List.not_mem_nil p)
  rw [applyMetadataUpdate_eq_filter_append us (applyMetadataUpdate m us),
    applyMetadataUpdate_eq_filter_append us m, List.filter_append, List.filter_filter, hF,
    List.append_nil]
  congr 1
  apply List.filter_congr
  intro p _
  rw [Bool.and_self]

/-- Merging the same tri-state scalar update twice is the same as merging it
once. -/
theorem applyTri_idem (cur upd : Option String) :
    applyTri (applyTri cur upd) upd = applyTri cur upd := by
  cases upd with
  | none => rfl
  | some v =>
    by_cases h : v = "" <;> simp [applyTri, h]

/-- Merging the same content-type update twice is the same as merging it
once. -/
theorem applyCT_idem (cur : String) (upd : Option String) :
    applyCT (applyCT cur upd) upd = applyCT cur upd := by
  cases upd <;> rfl

/-- C2: for every Listing produced by listObjects from a raw store page,
whatever order the store returned the entries in, the objects sequence is
strictly increasing under lexicographic comparison on (name, generation)
pairs, and the collapsedRuns sequence is independently strictly increasing. -/
theorem c2_page_listing_sorted (page : RawPage) (l : Listing)
    (hok : listObjects page = Except.ok l) :
    List.Pairwise objectLt l.objects ∧ List.Pairwise strLt l.collapsedRuns := by
  obtain ⟨⟨h1, h2⟩, rfl⟩ := listObjects_ok_iff.mp hok
  exact ⟨pairsChain_pairwise objectLt_transitive h1, pairsChain_pairwise strLt_transitive h2⟩

/-- Witness for C2 at a concrete in-order page. -/
theorem c2_page_listing_sorted_witness :
    listObjects ⟨[sampleA, sampleC], ["p/"], ""⟩ = Except.ok ⟨[sampleA, sampleC], ["p/"], ""⟩ ∧
      (List.Pairwise objectLt (⟨[sampleA, sampleC], ["p/"], ""⟩ : Listing).objects ∧
        List.Pairwise strLt (⟨[sampleA, sampleC], ["p/"], ""⟩ : Listing).collapsedRuns) :=
  ⟨by decide, c2_page_listing_sorted ⟨[sampleA, sampleC], ["p/"], ""⟩ _ (by decide)⟩

/-- C3: for every store page whose entries violate the within-page
strict-ordering invariant, listObjects fails with CorruptListing; no
re-sorted listing is returned. -/
theorem c3_corrupt_page_rejected (page : RawPage)
    (hbad : ¬ (List.Pairwise objectLt page.rawEntries ∧
      List.Pairwise strLt page.rawCollapsedRuns)) :
    listObjects page = Except.error GcsError.corruptListing := by
  unfold listObjects
  rw [if_neg]
  intro ⟨h1, h2⟩
  exact hbad ⟨pairsChain_pairwise objectLt_transitive h1, pairsChain_pairwise strLt_transitive h2⟩

/-- Witness for C3 at a concrete out-of-order page. -/
theorem c3_corrupt_page_rejected_witness :
    (¬ (List.Pairwise objectLt (⟨[sampleC, sampleA], [], ""⟩ : RawPage).rawEntries ∧
        List.Pairwise strLt (⟨[sampleC, sampleA], [], ""⟩ : RawPage).rawCollapsedRuns)) ∧
      listObjects ⟨[sampleC, sampleA], [], ""⟩ = Except.error GcsError.corruptListing :=
  ⟨by decide, c3_corrupt_page_rejected ⟨[sampleC, sampleA], [], ""⟩ (by decide)⟩

/-- C9: the continuation token placed in the resulting Listing is exactly the
page cursor returned by the store, passed through unchanged. -/
theorem c9_token_verbatim (page : RawPage) (l : Listing)
    (hok : listObjects page = Except.ok l) :
    l.continuationToken = page.nextToken := by
  rw [(listObjects_ok_iff.mp hok).2]

/-- Witness for C9 at a concrete page. -/
theorem c9_token_verbatim_witness :
    listObjects cwPage1 = Except.ok cwListing1 ∧
      cwListing1.continuationToken = cwPage1.nextToken :=
  ⟨by decide, c9_token_verbatim cwPage1 cwListing1 (by decide)⟩

/-- C8: against a store whose paging contract holds (cursor empty exactly on
the last page of the sequence), the continuation token of the Listing served
from page i is empty iff that page is the final one. -/
theorem c8_token_empty_iff_final (pages : List RawPage) (hwf : pagesWellFormed pages)
    (i : Nat) (h : i < pages.length) (l : Listing)
    (hok : listObjects (pages.get ⟨i, h⟩) = Except.ok l) :
    (l.continuationToken = "" ↔ i + 1 = pages.length) := by
  rw [(listObjects_ok_iff.mp hok).2]
  exact hwf i h

/-- Witness for C8 on a concrete two-page store, at the final page. -/
theorem c8_token_empty_iff_final_witness :
    pagesWellFormed [cwPage1, cwPage2] ∧
      listObjects ([cwPage1, cwPage2].get ⟨1, by decide⟩) = Except.ok cwListing2 ∧
      (cwListing2.continuationToken = "" ↔ 1 + 1 = ([cwPage1, cwPage2] : List RawPage).length) :=
  ⟨by decide, by decide,
    c8_token_empty_iff_final [cwPage1, cwPage2] (by decide) 1 (by decide) cwListing2 (by decide)⟩

/-- C1 counterexample: a continuation sequence of three listings, each
produced by listObjects, whose adjacent pairs satisfy the cross-page
contract, yet whose concatenated objects sequence is not strictly
increasing — the middle listing is empty (no objects, no collapsed runs, a
nonempty token), so the adjacent contracts do not connect the first and
third pages. -/
theorem c1_counterexample :
    (listObjects cxPage1 = Except.ok cxListing1 ∧
      listObjects cxPage2 = Except.ok cxListing2 ∧
      listObjects cxPage3 = Except.ok cxListing3) ∧
      pairsChain boundaryOk [cxListing1, cxListing2, cxListing3] ∧
      ¬ List.Pairwise objectLt
        (([cxListing1, cxListing2, cxListing3].map (fun l => l.objects)).flatten) := by
  refine ⟨⟨?_, ?_, ?_⟩, ?_, ?_⟩ <;> decide

/-- C1 (amended): for every valid continuation sequence of listings, each
produced by listObjects and each carrying at least one object or collapsed
run, with every adjacent pair satisfying the cross-page ordering contract,
the concatenation of all objects sequences is strictly increasing under
(name, generation) lexicographic order, and likewise for collapsedRuns. -/
theorem c1_concat_strictly_increasing (ls : List Listing)
    (hok : ∀ l ∈ ls, ∃ p, listObjects p = Except.ok l)
    (hb : pairsChain boundaryOk ls)
    (hne : ∀ l ∈ ls, listingKeys l ≠ []) :
    List.Pairwise objectLt ((ls.map (fun l => l.objects)).flatten) ∧
      List.Pairwise strLt ((ls.map (fun l => l.collapsedRuns)).flatten) := by
  have hT : ∀ a b c : Listing, boundaryOk a b → boundaryOk b c → listingKeys b ≠ [] →
      boundaryOk a c := fun _ _ _ h1 h2 hP => boundaryOk_trans h1 h2 hP
  have hbp : List.Pairwise boundaryOk ls := pairsChain_pairwise_bridge hT ls hb hne
  have hs : ∀ l ∈ ls, List.Pairwise objectLt l.objects ∧ List.Pairwise strLt l.collapsedRuns := by
    intro l hl
    obtain ⟨p, hp⟩ := hok l hl
    obtain ⟨⟨h1, h2⟩, rfl⟩ := listObjects_ok_iff.mp hp
    exact ⟨pairsChain_pairwise objectLt_transitive h1, pairsChain_pairwise strLt_transitive h2⟩
  exact ⟨flatten_objects_pairwise (fun l hl => (hs l hl).1) hbp,
    flatten_runs_pairwise (fun l hl => (hs l hl).2) hbp⟩

/-- Witness for the amended C1 on a concrete two-page continuation
sequence. -/
theorem c1_concat_strictly_increasing_witness :
    ((∀ l ∈ [cwListing1, cwListing2], ∃ p, listObjects p = Except.ok l) ∧
      pairsChain boundaryOk [cwListing1, cwListing2] ∧
      (∀ l ∈ [cwListing1, cwListing2], listingKeys l ≠ [])) ∧
      (List.Pairwise objectLt (([cwListing1, cwListing2].map (fun l => l.objects)).flatten) ∧
        List.Pairwise strLt (([cwListing1, cwListing2].map (fun l => l.collapsedRuns)).flatten)) :=
  have hok : ∀ l ∈ [cwListing1, cwListing2], ∃ p, listObjects p = Except.ok l := by
    intro l hl
    rcases List.mem_cons.mp hl with rfl | hl2
    · exact ⟨cwPage1, by decide⟩
    · rcases List.mem_cons.mp hl2 with rfl | hl3
      · exact ⟨cwPage2, by decide⟩
      · exact absurd hl3 (List.not_mem_nil l)
  ⟨⟨hok, by decide, by decide⟩,
    c1_concat_strictly_increasing [cwListing1, cwListing2] hok (by decide) (by decide)⟩

/-- C5: applying the metadata patch resolver to an Object record twice yields
the same final record as applying it once. -/
theorem c5_update_idempotent (r : ObjectRecord) (u : UpdateObjectRequest) (r' : ObjectRecord)
    (h : applyUpdate r u = Except.ok r') : applyUpdate r' u = Except.ok r' := by
  by_cases hct : u.contentType = some ""
  · rw [applyUpdate, if_pos hct] at h
    exact absurd h (by simp)
  · rw [applyUpdate, if_neg hct] at h
    have hr' := ((Except.ok.injEq _ _).mp h).symm
    rw [applyUpdate, if_neg hct, hr']
    simp [applyTri_idem, applyCT_idem, applyMetadataUpdate_idem]

/-- Witness for C5 at a concrete record and request exercising set, delete
and keep on scalars and on metadata keys. -/
theorem c5_update_idempotent_witness :
    applyUpdate sampleA ⟨"a", some "text/html", some "", none, some "cc",
        [("k", none), ("j", some "x")]⟩ =
      Except.ok ⟨"a", 1, "text/html", none, none, some "cc", [("j", "x")]⟩ ∧
      applyUpdate ⟨"a", 1, "text/html", none, none, some "cc", [("j", "x")]⟩
          ⟨"a", some "text/html", some "", none, some "cc", [("k", none), ("j", some "x")]⟩ =
        Except.ok ⟨"a", 1, "text/html", none, none, some "cc", [("j", "x")]⟩ :=
  ⟨by decide,
    c5_update_idempotent sampleA
      ⟨"a", some "text/html", some "", none, some "cc", [("k", none), ("j", some "x")]⟩
      ⟨"a", 1, "text/html", none, none, some "cc", [("j", "x")]⟩ (by decide)⟩

/-- C6: a request whose ContentType field is present and equal to the empty
string (deletion of the content type) always fails with InvalidUpdate, and no
mutated record is produced. -/
theorem c6_content_type_delete_rejected (r : ObjectRecord) (u : UpdateObjectRequest)
    (h : u.contentType = some "") :
    applyUpdate r u = Except.error GcsError.invalidUpdate := by
  rw [applyUpdate, if_pos h]

/-- Witness for C6 at a concrete request. -/
theorem c6_content_type_delete_rejected_witness :
    (⟨"a", some "", none, none, none, []⟩ : UpdateObjectRequest).contentType = some "" ∧
      applyUpdate sampleA ⟨"a", some "", none, none, none, []⟩ =
        Except.error GcsError.invalidUpdate :=
  ⟨rfl, c6_content_type_delete_rejected sampleA ⟨"a", some "", none, none, none, []⟩ rfl⟩

/-- C7: a CreateObjectRequest with generation precondition 0 issued against a
state in which an object with that name currently exists (its generation
being nonzero, as stored generations are) always fails with
PreconditionFailed. -/
theorem c7_create_precondition_zero_fails (state : List ObjectRecord)
    (req : CreateObjectRequest) (g : Int) (hv : validName req.name = true)
    (hp : req.generationPrecondition = some 0)
    (hg : currentGeneration state req.name = some g) (hgz : g ≠ 0) :
    createObject state req = Except.error GcsError.preconditionFailed := by
  rw [createObject]
  rw [hv]
  simp only [Bool.not_true, Bool.false_eq_true, if_false, hp, hg]
  rw [if_neg (fun h => hgz h.symm)]

/-- Witness for C7 at a concrete state holding the object at generation 1. -/
theorem c7_create_precondition_zero_fails_witness :
    validName "a" = true ∧
      (⟨"a", "", "", "", "", [], [], some 0⟩ : CreateObjectRequest).generationPrecondition =
        some 0 ∧
      currentGeneration [sampleA] "a" = some 1 ∧ (1 : Int) ≠ 0 ∧
      createObject [sampleA] ⟨"a", "", "", "", "", [], [], some 0⟩ =
        Except.error GcsError.preconditionFailed :=
  ⟨by decide, rfl, by decide, by decide,
    c7_create_precondition_zero_fails [sampleA] ⟨"a", "", "", "", "", [], [], some 0⟩ 1
      (by decide) rfl (by decide) (by decide)⟩

/-- C4: the claim says every public operation requiring a name validates it
and fails with InvalidArgument before any store call; the code does not — at
the failing input (an empty object name, invalid per the naming rules of
src/gcs/requests.go), bucket.NewWriter returns a writer with a nil error and
no validation, and bucket.NewReader forwards the name to the remote store,
which observes a call. -/
theorem c4_validation_gap :
    Bucket.NewWriter ⟨"proj", "bkt"⟩ ⟨"", ""⟩ =
        (Except.ok ⟨⟨⟨"", ""⟩⟩⟩, ([] : List StoreCall)) ∧
      Bucket.NewReader ⟨"proj", "bkt"⟩ "" = [StoreCall.remoteOpenRead "bkt" ""] ∧
      validName "" = false :=
  ⟨rfl, rfl, rfl⟩

/-- C10: for every attrs argument, including one with an empty Name,
bucket.NewWriter returns a writer wrapping exactly those attributes together
with a nil error, performing no validation and making no store call. -/
theorem c10_newwriter_unconditional (b : Bucket) (attrs : ObjectAttrs) :
    Bucket.NewWriter b attrs = (Except.ok ⟨⟨attrs⟩⟩, ([] : List StoreCall)) :=
  rfl

end Gcs
